import Mathlib

/-!
# backendify: the service layer of `service.go`

A shallow embedding of the service layer of the company lookup gateway
(`readArgs`, `Validate`, `GetCompany`, `formRequest`, `processResponse`,
`isActive`) together with the properties its specification states.

Conventions of the embedding.

* A Go `string` is a sequence of bytes. `len`, indexing and slicing work on
  bytes, so a string is a `List Nat` whose elements are byte values. The
  characters of a string are its runes, which `utf8.RuneCountInString`
  counts; a character outside ASCII takes more than one byte.
* A Go pair `(v, err)` whose `v` is nil exactly when `err` is not is an
  `Except GoError _`; `isActive`, whose boolean is meaningful next to the
  error, returns the pair itself.
* Calls into libraries (`time.Parse`, `time.Now`, `url.ParseRequestURI`,
  `json.Decoder.Decode`, `http.Get`) are parameters of the definitions that
  make them. What a call does besides returning (the calls of `http.Get` it
  makes, ending the process, a run-time panic) is recorded in its value.
-/

namespace Backendify

/-! ## Go strings -/

/-- A Go string: its bytes, in order. -/
abbrev GoString := List Nat

/-- UTF-8 encoding of one code point, which is what the Go conversion
`string(r)` yields; code points that are not valid runes encode U+FFFD. -/
def utf8EncodeRune (r : Nat) : GoString :=
  if r < 0x80 then [r]
  else if r < 0x800 then [0xC0 + r / 64, 0x80 + r % 64]
  else if 0xD800 ≤ r ∧ r ≤ 0xDFFF then [0xEF, 0xBF, 0xBD]
  else if r < 0x10000 then [0xE0 + r / 4096, 0x80 + r / 64 % 64, 0x80 + r % 64]
  else if r < 0x110000 then
    [0xF0 + r / 262144, 0x80 + r / 4096 % 64, 0x80 + r / 64 % 64, 0x80 + r % 64]
  else [0xEF, 0xBF, 0xBD]

/-- The bytes of a string literal of the source. -/
def str (s : String) : GoString :=
  s.toList.flatMap (fun c => utf8EncodeRune c.toNat)

/-- The table `first` of package `utf8` with its accept ranges: for a
leading byte of a multi-byte rune, the width of the rune and the bounds of
its second byte; nothing for any other byte. -/
def first (c : Nat) : Option (Nat × Nat × Nat) :=
  if 0xC2 ≤ c ∧ c ≤ 0xDF then some (2, 0x80, 0xBF)
  else if c = 0xE0 then some (3, 0xA0, 0xBF)
  else if 0xE1 ≤ c ∧ c ≤ 0xEC then some (3, 0x80, 0xBF)
  else if c = 0xED then some (3, 0x80, 0x9F)
  else if 0xEE ≤ c ∧ c ≤ 0xEF then some (3, 0x80, 0xBF)
  else if c = 0xF0 then some (4, 0x90, 0xBF)
  else if 0xF1 ≤ c ∧ c ≤ 0xF3 then some (4, 0x80, 0xBF)
  else if c = 0xF4 then some (4, 0x80, 0x8F)
  else none

/-- The number of bytes one step of `utf8.RuneCountInString` passes over at
the start of `c :: rest`: the width of a well-formed rune, and 1 for a byte
that starts none. -/
def runeWidth (c : Nat) (rest : GoString) : Nat :=
  if c < 0x80 then 1
  else
    match first c with
    | none => 1
    | some (size, lo, hi) =>
      if rest.length + 1 < size then 1
      else if rest.getD 0 0 < lo ∨ hi < rest.getD 0 0 then 1
      else if size = 2 then 2
      else if rest.getD 1 0 < 0x80 ∨ 0xBF < rest.getD 1 0 then 1
      else if size = 3 then 3
      else if rest.getD 2 0 < 0x80 ∨ 0xBF < rest.getD 2 0 then 1
      else 4

/-- The loop of `utf8.RuneCountInString`; `skip` is the number of bytes of
the rune last counted that are still ahead. -/
def runeCountFrom : Nat → GoString → Nat
  | _, [] => 0
  | skip + 1, _ :: rest => runeCountFrom skip rest
  | 0, c :: rest => 1 + runeCountFrom (runeWidth c rest - 1) rest

/-- The function `utf8.RuneCountInString`: the number of characters of a
string. The service does not call it; it states what "2 characters long"
means next to `len`. -/
def RuneCountInString (s : GoString) : Nat := runeCountFrom 0 s

/-! ## Errors -/

/-- The fields of a `*time.ParseError`. -/
structure ParseError where
  Layout : GoString
  Value : GoString
  LayoutElem : GoString
  ValueElem : GoString
  Message : GoString
  deriving DecidableEq, Repr

/-- The error values the service layer creates or passes on. -/
inductive GoError where
  /-- An error made by `errors.New(msg)`. -/
  | new (msg : String)
  /-- An error made by `fmt.Errorf(format, err)` where `format` is `lead`
  followed by the verb `%w`. -/
  | wrapf (lead : String) (inner : GoError)
  /-- A `*time.ParseError` returned by `time.Parse`. -/
  | timeParse (e : ParseError)
  /-- A `validation.Errors` returned by `validation.ValidateStruct`: the
  failed fields, each with its message. -/
  | validation (fields : List (String × String))
  /-- An error of a library call whose detail the service does not inspect
  (`url.ParseRequestURI`, `json.Decoder.Decode`, `http.Get`). -/
  | lib (detail : String)
  deriving DecidableEq, Repr

/-- The result of `errors.Unwrap`. -/
def GoError.unwrap : GoError → Option GoError
  | .wrapf _ inner => some inner
  | _ => none

deriving instance DecidableEq for Except

/-! ## isActive -/

/-- The layout `time.RFC3339`. -/
def RFC3339 : GoString := str "2006-01-02T15:04:05Z07:00"

/-- Embedding of `isActive` of `service.go`. `parse` stands for
`time.Parse(time.RFC3339, ·)`, which yields the instant a string denotes,
and `now` for the instant `time.Now()` returns; instants are points of
`Int`, and `formattedDate.After(time.Now())` is their strict order. -/
def isActive (parse : GoString → Except ParseError Int) (now : Int)
    (close : GoString) : Bool × Option GoError :=
  if close = str "" then (true, none)
  else
    match parse close with
    | .error err => (false, some (.wrapf "Error while parsing the date time: " (.timeParse err)))
    | .ok formattedDate =>
      if now < formattedDate then (true, none)
      else (false, none)

/-! ## Outcomes of a call -/

/-- How a call ends: it returns to its caller, or a run-time panic unwinds
it, or the process is ended from inside it (`log.Fatalln` calls
`os.Exit(1)`). -/
inductive Outcome (α : Type) where
  | returned (v : α)
  | panicked (msg : String)
  | exited (code : Nat)
  deriving DecidableEq, Repr

/-- A call together with the calls of `http.Get` it made: the string each
was given, oldest first. Whether such a call puts a request on the wire, and
for which address, is decided inside `http.Get`. -/
structure Run (α : Type) where
  httpGetCalls : List GoString
  outcome : Outcome α
  deriving DecidableEq, Repr

/-! ## The Backends map -/

/-- A Go `map[string]string`: its entries, one per key. -/
structure GoMap where
  entries : List (GoString × GoString)
  deriving DecidableEq, Repr

namespace GoMap

/-- The map `make(map[string]string)`. -/
def make : GoMap := ⟨[]⟩

/-- The two-valued read `v, ok := m[k]`. -/
def lookup (m : GoMap) (k : GoString) : Option GoString :=
  m.entries.lookup k

/-- The read `m[k]`: the zero value `""` when `k` is not a key. -/
def index (m : GoMap) (k : GoString) : GoString :=
  (m.lookup k).getD (str "")

/-- The assignment `m[k] = v`. -/
def set (m : GoMap) (k v : GoString) : GoMap :=
  ⟨(k, v) :: m.entries.filter (fun p => p.1 ≠ k)⟩

/-- The keys of the map. -/
def keys (m : GoMap) : List GoString := m.entries.map Prod.fst

/-- The value of `len(m)`. -/
def len (m : GoMap) : Nat := m.entries.length

end GoMap

/-- The `Service` object. -/
structure Service where
  Backends : GoMap
  deriving DecidableEq, Repr

/-! ## readArgs and NewService -/

/-- The loop `for _, arg := range params` of `readArgs`, started with the
map `m`. `parseRequestURI` yields the `err` of `url.ParseRequestURI`. An
index past the end of `arg` is a run-time panic. -/
def readArgsLoop (parseRequestURI : GoString → Option GoError) :
    GoMap → List GoString → Outcome (Except GoError GoMap)
  | m, [] => .returned (.ok m)
  | m, arg :: rest =>
    match arg[2]? with
    | none => .panicked "index out of range"
    | some b =>
      if utf8EncodeRune b ≠ str "=" then
        .returned (.error (.new "invalid parameter format"))
      else
        match parseRequestURI (arg.drop 3) with
        | some _ => .returned (.error (.new "invalid parameter, must contain valid URL"))
        | none => readArgsLoop parseRequestURI (m.set (arg.take 2) (arg.drop 3)) rest

/-- Embedding of `readArgs` of `service.go`; `osArgs` is `os.Args`. -/
def readArgs (parseRequestURI : GoString → Option GoError) (osArgs : List GoString) :
    Outcome (Except GoError GoMap) :=
  match osArgs with
  | [] => .panicked "slice bounds out of range"
  | _ :: params =>
    let m := GoMap.make
    if params.length < 1 then .returned (.error (.new "no valid parameters"))
    else readArgsLoop parseRequestURI m params

/-- Embedding of `NewService` of `service.go`. -/
def NewService (parseRequestURI : GoString → Option GoError) (osArgs : List GoString) :
    Outcome (Except GoError Service) :=
  match readArgs parseRequestURI osArgs with
  | .returned (.error err) => .returned (.error err)
  | .returned (.ok m) => .returned (.ok { Backends := m })
  | .panicked msg => .panicked msg
  | .exited code => .exited code

/-! ## Requests and responses -/

/-- The request received from the transport layer. -/
structure GetCompanyRequest where
  ID : GoString
  Code : GoString
  deriving DecidableEq, Repr

/-- The response sent to the transport layer. -/
structure GetCompanyResponse where
  Id : GoString
  Name : GoString
  Active : Bool
  ActiveUntil : GoString
  deriving DecidableEq, Repr

/-- The decoded body of a V1 backend. -/
structure V1Response where
  CompanyName : GoString
  CreatedOn : GoString
  ClosedOn : GoString
  deriving DecidableEq, Repr

/-- The decoded body of a V2 backend. -/
structure V2Response where
  CompanyName : GoString
  TaxID : GoString
  DissolvedOn : GoString
  deriving DecidableEq, Repr

/-- An `http.Header`: canonical keys, each with its values. -/
abbrev Header := List (GoString × List GoString)

/-- The method `Header.Get`, asked for a key in canonical form: the first
value under the key, `""` when there is none. -/
def Header.Get (h : Header) (key : GoString) : GoString :=
  match h.lookup key with
  | some (v :: _) => v
  | _ => str ""

/-- What the service reads of an `*http.Response`. -/
structure HttpResponse where
  Header : Header
  Body : GoString
  deriving DecidableEq, Repr

/-! ## Validate -/

/-- The rule `validation.Required` on a string. -/
def Required (value : GoString) : Option String :=
  if value.length = 0 then some "cannot be blank" else none

/-- The message of the rule `validation.Length(min, max)`. -/
def lengthRuleError (min max : Nat) : String :=
  if min = 0 ∧ 0 < max then s!"the length must be no more than {max}"
  else if 0 < min ∧ max = 0 then s!"the length must be no less than {min}"
  else if 0 < min ∧ 0 < max then
    if min = max then s!"the length must be exactly {min}"
    else s!"the length must be between {min} and {max}"
  else "the value must be empty"

/-- The rule `validation.Length(min, max)` on a string: the length is
`len(value)`, the number of bytes; an empty value is valid, and a bound of
`0` is no bound. -/
def Length (min max : Nat) (value : GoString) : Option String :=
  if value.length = 0 then none
  else if (0 < min ∧ value.length < min) ∨ (0 < max ∧ max < value.length) ∨
      (min = 0 ∧ max = 0 ∧ 0 < value.length) then
    some (lengthRuleError min max)
  else none

/-- The call `validation.Field(&v, rules...)` under the field name `name`:
the rules run in order and the first failure is the field's error. -/
def Field (name : String) (value : GoString) (rules : List (GoString → Option String)) :
    List (String × String) :=
  match rules.findSome? (fun rule => rule value) with
  | some msg => [(name, msg)]
  | none => []

/-- The call `validation.ValidateStruct`: nil when no field failed. -/
def ValidateStruct (fields : List (List (String × String))) : Option GoError :=
  match fields.flatten with
  | [] => none
  | errs => some (.validation errs)

/-- Embedding of `GetCompanyRequest.Validate` of `service.go`. -/
def GetCompanyRequest.Validate (c : GetCompanyRequest) : Option GoError :=
  ValidateStruct [
    Field "ID" c.ID [Required],
    Field "Code" c.Code [Required, Length 2 2]]

/-! ## The service -/

/-- The library calls and the clock the service layer depends on. -/
structure Deps where
  /-- The call `time.Parse(time.RFC3339, ·)`. -/
  timeParse : GoString → Except ParseError Int
  /-- The instant `time.Now()` returns. -/
  now : Int
  /-- The call `json.NewDecoder(body).Decode` into a `V1Response`. -/
  decodeV1 : GoString → Except GoError V1Response
  /-- The call `json.NewDecoder(body).Decode` into a `V2Response`. -/
  decodeV2 : GoString → Except GoError V2Response
  /-- The call `http.Get`. -/
  httpGet : GoString → Except GoError HttpResponse

/-- Embedding of `Service.formRequest` of `service.go`. -/
def Service.formRequest (s : Service) (req : GetCompanyRequest) : GoString :=
  s.Backends.index req.Code ++ str "/companies/" ++ req.ID

/-- Embedding of `processResponse` of `service.go`. -/
def processResponse (L : Deps) (resp : HttpResponse) : Except GoError GetCompanyResponse :=
  let out : GetCompanyResponse := { Id := str "", Name := str "", Active := false, ActiveUntil := str "" }
  let contentType := resp.Header.Get (str "Content-Type")
  if contentType = str "application/x-company-v1" then
    match L.decodeV1 resp.Body with
    | .error err => .error (.wrapf "unable to decode response: " err)
    | .ok obj =>
      let out := { out with ActiveUntil := obj.ClosedOn }
      match isActive L.timeParse L.now out.ActiveUntil with
      | (_, some err) => .error err
      | (active, none) => .ok { out with Active := active, Name := obj.CompanyName }
  else if contentType = str "application/x-company-v2" then
    match L.decodeV2 resp.Body with
    | .error err => .error (.wrapf "unable to decode response: " err)
    | .ok obj =>
      let out := { out with ActiveUntil := obj.DissolvedOn }
      match isActive L.timeParse L.now out.ActiveUntil with
      | (_, some err) => .error err
      | (active, none) => .ok { out with Active := active, Name := obj.CompanyName }
  else .error (.new "invalid response")

/-- Embedding of `Service.GetCompany` of `service.go`. -/
def Service.GetCompany (L : Deps) (s : Service) (req : GetCompanyRequest) :
    Run (Except GoError GetCompanyResponse) :=
  match req.Validate with
  | some err => ⟨[], .returned (.error (.wrapf "invalid request: " err))⟩
  | none =>
    let url := s.formRequest req
    match L.httpGet url with
    | .error _ => ⟨[url], .exited 1⟩
    | .ok resp =>
      match processResponse L resp with
      | .error err => ⟨[url], .returned (.error err)⟩
      | .ok out => ⟨[url], .returned (.ok { out with Id := req.ID })⟩

/-! ## Sample collaborators

Concrete values for the parameters, used to run the definitions. -/

/-- A finite fragment of `time.Parse(time.RFC3339, ·)`: the two timestamps of
the unit tests, with their Unix seconds; any other string is refused with a
`ParseError` for the whole value. -/
def sampleParse (value : GoString) : Except ParseError Int :=
  if value = str "2021-01-02T15:04:05Z" then .ok 1609599845
  else if value = str "2024-01-02T15:04:05Z" then .ok 1704207845
  else .error
    { Layout := RFC3339, Value := value, LayoutElem := str "2006", ValueElem := value,
      Message := str "" }

/-- A clock reading between the two timestamps of the unit tests
(2023-11-14T22:13:20Z). -/
def sampleNow : Int := 1700000000

/-- A transport with no reachable backend: every `http.Get` fails. -/
def unreachable (_ : GoString) : Except GoError HttpResponse :=
  .error (.lib "unsupported protocol scheme")

/-- A stand-in for `url.ParseRequestURI` that accepts every address. -/
def acceptAll (_ : GoString) : Option GoError := none

/-- A decoder that yields the same V1 object for every body. -/
def constV1 (obj : V1Response) (_ : GoString) : Except GoError V1Response := .ok obj

/-- A decoder that yields the same V2 object for every body. -/
def constV2 (obj : V2Response) (_ : GoString) : Except GoError V2Response := .ok obj

/-- Collaborators for the examples: the sample parser and clock, decoders
that yield Acme closed on the given date, and an unreachable transport. -/
def sampleDeps (closed : GoString) : Deps where
  timeParse := sampleParse
  now := sampleNow
  decodeV1 := constV1 { CompanyName := str "Acme", CreatedOn := str "", ClosedOn := closed }
  decodeV2 := constV2 { CompanyName := str "Acme", TaxID := str "", DissolvedOn := closed }
  httpGet := unreachable

/-! ## Notions used in the statements -/

/-- The value of `Content-Type` a V1 backend sends. -/
def contentTypeV1 : GoString := str "application/x-company-v1"

/-- The value of `Content-Type` a V2 backend sends. -/
def contentTypeV2 : GoString := str "application/x-company-v2"

/-- The error or one it wraps is a `*time.ParseError`: its `Value`. -/
def GoError.parsedValue : GoError → Option GoString
  | .wrapf _ inner => inner.parsedValue
  | .timeParse e => some e.Value
  | _ => none

/-- The command-line entry `cc=address`. -/
def entry (e : GoString × GoString) : GoString := e.1 ++ str "=" ++ e.2

/-- The response a decoded body leads to: the error of `isActive` on the
closure date `d` when there is one, else the result with name `n`, the flag
of `isActive` and `d` itself. -/
def decodedResult (L : Deps) (n d : GoString) : Except GoError GetCompanyResponse :=
  match isActive L.timeParse L.now d with
  | (_, some err) => .error err
  | (active, none) => .ok { Id := str "", Name := n, Active := active, ActiveUntil := d }

/-- The body of `resp` decodes, under the variant its `Content-Type` names,
to the company name `n` and the closure date `d`. -/
def DecodesTo (L : Deps) (resp : HttpResponse) (n d : GoString) : Prop :=
  (resp.Header.Get (str "Content-Type") = contentTypeV1 ∧
    ∃ created, L.decodeV1 resp.Body = .ok ⟨n, created, d⟩) ∨
  (resp.Header.Get (str "Content-Type") = contentTypeV2 ∧
    ∃ tin, L.decodeV2 resp.Body = .ok ⟨n, tin, d⟩)

/-! ## Basic facts -/

@[simp] theorem str_empty : str "" = [] := rfl

theorem sampleParse_empty (t : Int) : sampleParse (str "") ≠ .ok t := by
  have h : sampleParse (str "") =
      .error { Layout := RFC3339, Value := [], LayoutElem := str "2006", ValueElem := [],
               Message := [] } := by decide
  rw [h]
  simp

theorem sampleParse_value (value : GoString) (e : ParseError)
    (h : sampleParse value = .error e) : e.Value = value := by
  unfold sampleParse at h
  split_ifs at h
  cases h
  rfl

/-! ## isActive -/

/-- Claim C9: `isActive` applied to the empty string returns `(true, nil)`,
whatever the parser and whatever the current time. -/
theorem isActive_empty (parse : GoString → Except ParseError Int) (now : Int) :
    isActive parse now (str "") = (true, none) := by
  simp [isActive]

/-- Claim C1: with the clock fixed at `now`, a string `d` that `time.Parse`
accepts as the instant `t` makes `isActive` return `(true, nil)` when `t` is
strictly after `now` and `(false, nil)` when `t` is at or before `now`.
`hempty` is the fact that `time.Parse` accepts no empty string. -/
theorem isActive_valid_date (parse : GoString → Except ParseError Int) (now : Int)
    (d : GoString) (t : Int)
    (hempty : ∀ t0, parse (str "") ≠ .ok t0)
    (hd : parse d = .ok t) :
    (now < t → isActive parse now d = (true, none)) ∧
    (t ≤ now → isActive parse now d = (false, none)) := by
  have hne : d ≠ str "" := by
    intro h
    exact hempty t (h ▸ hd)
  constructor
  · intro hlt
    simp [isActive, str_empty ▸ hne, hd, hlt]
  · intro hle
    simp [isActive, str_empty ▸ hne, hd, not_lt.mpr hle]

/-- Witness of C1 at the timestamps of the unit tests: the one of 2021 is
before the sample clock, the one of 2024 after it. -/
theorem isActive_valid_date_witness :
    isActive sampleParse sampleNow (str "2021-01-02T15:04:05Z") = (false, none) ∧
    isActive sampleParse sampleNow (str "2024-01-02T15:04:05Z") = (true, none) :=
  ⟨(isActive_valid_date sampleParse sampleNow (str "2021-01-02T15:04:05Z") 1609599845
      sampleParse_empty (by decide)).2 (by decide),
   (isActive_valid_date sampleParse sampleNow (str "2024-01-02T15:04:05Z") 1704207845
      sampleParse_empty (by decide)).1 (by decide)⟩

/-- Claim C8: a non-empty string `d` that `time.Parse` refuses with the
parse error `e` makes `isActive` return `false` together with the error
`fmt.Errorf("Error while parsing the date time: %w", e)`, whatever the
current time: the error is not nil, unwraps to `e`, and carries `d` as the
value that failed to parse. `hval` is the fact that the `ParseError` of
`time.Parse` records the string it was given. -/
theorem isActive_invalid_date (parse : GoString → Except ParseError Int) (now : Int)
    (d : GoString) (e : ParseError)
    (hne : d ≠ str "")
    (hd : parse d = .error e)
    (hval : ∀ s e0, parse s = .error e0 → e0.Value = s) :
    isActive parse now d =
      (false, some (.wrapf "Error while parsing the date time: " (.timeParse e))) ∧
    (isActive parse now d).1 ≠ true ∧
    (isActive parse now d).2 ≠ none ∧
    ((isActive parse now d).2.bind GoError.unwrap) = some (.timeParse e) ∧
    ((isActive parse now d).2.bind GoError.parsedValue) = some d := by
  have h : isActive parse now d =
      (false, some (.wrapf "Error while parsing the date time: " (.timeParse e))) := by
    simp [isActive, str_empty ▸ hne, hd]
  refine ⟨h, ?_, ?_, ?_, ?_⟩
  · simp [h]
  · simp [h]
  · simp [h, GoError.unwrap]
  · simp [h, GoError.parsedValue, hval d e hd]

/-- Witness of C8 at the invalid date of the unit tests. -/
theorem isActive_invalid_date_witness :
    (isActive sampleParse sampleNow (str "not a date")).1 = false ∧
    ((isActive sampleParse sampleNow (str "not a date")).2.bind GoError.parsedValue)
      = some (str "not a date") :=
  have h := isActive_invalid_date sampleParse sampleNow (str "not a date")
    { Layout := RFC3339, Value := str "not a date", LayoutElem := str "2006",
      ValueElem := str "not a date", Message := str "" }
    (by decide) (by decide) sampleParse_value
  ⟨by rw [h.1], h.2.2.2.2⟩

/-! ## formRequest -/

/-- Claim C10: when the Backends map has the request's Code as a key with
base address `b`, `formRequest` returns `b` followed by `"/companies/"`
followed by the request ID, and nothing else. -/
theorem formRequest_registered (s : Service) (req : GetCompanyRequest) (b : GoString)
    (h : s.Backends.lookup req.Code = some b) :
    s.formRequest req = b ++ str "/companies/" ++ req.ID := by
  simp [Service.formRequest, GoMap.index, h]

/-- Witness of C10 at the case of the unit test: base address
`http://localhost:9002` under `us` and ID `1234`. -/
theorem formRequest_registered_witness :
    Service.formRequest ⟨⟨[(str "us", str "http://localhost:9002")]⟩⟩ ⟨str "1234", str "us"⟩
      = str "http://localhost:9002/companies/1234" :=
  (formRequest_registered ⟨⟨[(str "us", str "http://localhost:9002")]⟩⟩
    ⟨str "1234", str "us"⟩ (str "http://localhost:9002") (by decide)).trans (by decide)

/-! ## processResponse -/

/-- Claim C5: a response whose `Content-Type` is neither
`application/x-company-v1` nor `application/x-company-v2` makes
`processResponse` return the error `invalid response` and no result,
whatever the body and whatever the decoders would do with it. -/
theorem processResponse_unknown_variant (L : Deps) (resp : HttpResponse)
    (h1 : resp.Header.Get (str "Content-Type") ≠ contentTypeV1)
    (h2 : resp.Header.Get (str "Content-Type") ≠ contentTypeV2) :
    processResponse L resp = .error (.new "invalid response") := by
  unfold contentTypeV1 at h1
  unfold contentTypeV2 at h2
  simp only [processResponse, if_neg h1, if_neg h2]

/-- Witness of C5 at a response with no `Content-Type` header and at one with
an unrecognized `Content-Type`. -/
theorem processResponse_unknown_variant_witness :
    processResponse (sampleDeps (str "")) ⟨[], str "body"⟩ = .error (.new "invalid response") ∧
    processResponse (sampleDeps (str ""))
      ⟨[(str "Content-Type", [str "application/json"])], str "body"⟩
      = .error (.new "invalid response") :=
  ⟨processResponse_unknown_variant (sampleDeps (str "")) ⟨[], str "body"⟩
      (by decide) (by decide),
   processResponse_unknown_variant (sampleDeps (str ""))
      ⟨[(str "Content-Type", [str "application/json"])], str "body"⟩ (by decide) (by decide)⟩

theorem processResponse_eq_decodedResult (L : Deps) (resp : HttpResponse) (n d : GoString)
    (h : DecodesTo L resp n d) : processResponse L resp = decodedResult L n d := by
  rcases h with ⟨hct, created, hdec⟩ | ⟨hct, tin, hdec⟩
  · unfold contentTypeV1 at hct
    simp only [processResponse, decodedResult, hct, if_true, hdec]
  · have hne : resp.Header.Get (str "Content-Type") ≠ str "application/x-company-v1" := by
      rw [hct]
      decide
    unfold contentTypeV2 at hct
    unfold processResponse decodedResult
    simp only [if_neg hne]
    simp only [hct, if_true, hdec]

/-- Claim C6: for a response with a recognized `Content-Type` whose body
decodes to the name `n` and the closure date `d` (`closed_on` for V1,
`dissolved_on` for V2), `processResponse` returns the error of `isActive d`
when `isActive d` fails and fails in no other case; otherwise it returns
the result with `Name = n`, `ActiveUntil = d` and `Active` the boolean of
`isActive d`. When `d` is empty `Active` is true, and any other recognized
response decoding to the same `n` and `d`, of either variant, gives the same
result. -/
theorem processResponse_decoded (L : Deps) (resp : HttpResponse) (n d : GoString)
    (h : DecodesTo L resp n d) :
    (∀ err, (isActive L.timeParse L.now d).2 = some err →
      processResponse L resp = .error err) ∧
    ((∃ err, processResponse L resp = .error err) →
      (isActive L.timeParse L.now d).2 ≠ none) ∧
    ((isActive L.timeParse L.now d).2 = none →
      processResponse L resp = .ok
        { Id := str "", Name := n, Active := (isActive L.timeParse L.now d).1,
          ActiveUntil := d }) ∧
    (d = str "" → processResponse L resp = .ok
        { Id := str "", Name := n, Active := true, ActiveUntil := str "" }) ∧
    (∀ resp2, DecodesTo L resp2 n d → processResponse L resp2 = processResponse L resp) := by
  have heq := processResponse_eq_decodedResult L resp n d h
  refine ⟨?_, ?_, ?_, ?_, ?_⟩
  · intro err herr
    rw [heq]
    unfold decodedResult
    rcases hia : isActive L.timeParse L.now d with ⟨a, e⟩
    rw [hia] at herr
    simp only at herr
    subst herr
    rfl
  · rintro ⟨err, herr⟩ hnone
    rw [heq] at herr
    unfold decodedResult at herr
    rcases hia : isActive L.timeParse L.now d with ⟨a, e⟩
    rw [hia] at herr hnone
    simp only at hnone
    subst hnone
    simp at herr
  · intro hnone
    rw [heq]
    unfold decodedResult
    rcases hia : isActive L.timeParse L.now d with ⟨a, e⟩
    rw [hia] at hnone
    simp only at hnone
    subst hnone
    rfl
  · intro hd
    subst hd
    rw [heq]
    simp [decodedResult, isActive]
  · intro resp2 h2
    rw [heq, processResponse_eq_decodedResult L resp2 n d h2]

/-- Witness of C6 at the two round trips of the specification: a V1 body for
Acme with no closure date, and one closed on 2021-01-02T15:04:05Z, which the
sample clock has passed. -/
theorem processResponse_decoded_witness :
    processResponse (sampleDeps (str ""))
        ⟨[(str "Content-Type", [contentTypeV1])], str "body"⟩
      = .ok { Id := str "", Name := str "Acme", Active := true, ActiveUntil := str "" } ∧
    processResponse (sampleDeps (str "2021-01-02T15:04:05Z"))
        ⟨[(str "Content-Type", [contentTypeV1])], str "body"⟩
      = .ok { Id := str "", Name := str "Acme", Active := false,
              ActiveUntil := str "2021-01-02T15:04:05Z" } :=
  ⟨(processResponse_decoded (sampleDeps (str ""))
      ⟨[(str "Content-Type", [contentTypeV1])], str "body"⟩ (str "Acme") (str "")
      (Or.inl ⟨by decide, str "", rfl⟩)).2.2.2.1 rfl,
   (processResponse_decoded (sampleDeps (str "2021-01-02T15:04:05Z"))
      ⟨[(str "Content-Type", [contentTypeV1])], str "body"⟩ (str "Acme")
      (str "2021-01-02T15:04:05Z")
      (Or.inl ⟨by decide, str "", rfl⟩)).2.2.1 (by decide)⟩

/-! ## Validate and GetCompany -/

theorem Validate_eq_none_iff (req : GetCompanyRequest) :
    req.Validate = none ↔ req.ID ≠ str "" ∧ req.Code.length = 2 := by
  rcases req with ⟨id, code⟩
  by_cases hid : id = []
  · subst hid
    by_cases hc0 : code = []
    · subst hc0
      simp [GetCompanyRequest.Validate, ValidateStruct, Field, Required, Length]
    · by_cases hc2 : code.length = 2 <;>
        simp [GetCompanyRequest.Validate, ValidateStruct, Field, Required, Length, hc0, hc2]
  · by_cases hc0 : code = []
    · subst hc0
      simp [GetCompanyRequest.Validate, ValidateStruct, Field, Required, Length, hid]
    · by_cases hc2 : code.length = 2
      · simp [GetCompanyRequest.Validate, ValidateStruct, Field, Required, Length, hid, hc0, hc2]
      · have hlt : code.length < 2 ∨ 2 < code.length := by omega
        simp [GetCompanyRequest.Validate, ValidateStruct, Field, Required, Length, hid, hc0,
          hc2, hlt]

theorem Validate_eq_some (req : GetCompanyRequest) (err : GoError)
    (h : req.Validate = some err) : ∃ fields, fields ≠ [] ∧ err = .validation fields := by
  unfold GetCompanyRequest.Validate ValidateStruct at h
  split at h
  · cases h
  · next errs hne =>
    cases h
    exact ⟨_, hne, rfl⟩

/-- Claim C2 as amended: a request whose ID is empty, or whose Code is empty
or not exactly 2 bytes long (`len(Code) ≠ 2`), makes `GetCompany` return no
response and the error `invalid request: ` wrapping the validation error of
`Validate`, which names at least one field. `http.Get` is not called, and
the outcome is the same for every Backends map and every transport. -/
theorem GetCompany_invalid_request (L : Deps) (s : Service) (req : GetCompanyRequest)
    (h : req.ID = str "" ∨ req.Code = str "" ∨ req.Code.length ≠ 2) :
    ∃ fields, fields ≠ [] ∧ req.Validate = some (.validation fields) ∧
      s.GetCompany L req =
        ⟨[], .returned (.error (.wrapf "invalid request: " (.validation fields)))⟩ := by
  have hv : req.Validate ≠ none := by
    rw [Ne, Validate_eq_none_iff]
    rintro ⟨hid, hlen⟩
    rcases h with h | h | h
    · exact hid h
    · rw [h] at hlen
      simp at hlen
    · exact h hlen
  rcases hval : req.Validate with _ | err
  · exact absurd hval hv
  · obtain ⟨fields, hne, rfl⟩ := Validate_eq_some req err hval
    exact ⟨fields, hne, rfl, by simp [Service.GetCompany, hval]⟩

/-- Witness of C2 at a request with an empty ID and at one with a Code of
three bytes, against a registry that has a backend for `us`. -/
theorem GetCompany_invalid_request_witness :
    (∃ fields, fields ≠ [] ∧
      (⟨str "", str "us"⟩ : GetCompanyRequest).Validate = some (.validation fields) ∧
      Service.GetCompany (sampleDeps (str ""))
          ⟨⟨[(str "us", str "http://localhost:9002")]⟩⟩ ⟨str "", str "us"⟩ =
        ⟨[], .returned (.error (.wrapf "invalid request: " (.validation fields)))⟩) ∧
    (∃ fields, fields ≠ [] ∧
      (⟨str "1234", str "usa"⟩ : GetCompanyRequest).Validate = some (.validation fields) ∧
      Service.GetCompany (sampleDeps (str ""))
          ⟨⟨[(str "us", str "http://localhost:9002")]⟩⟩ ⟨str "1234", str "usa"⟩ =
        ⟨[], .returned (.error (.wrapf "invalid request: " (.validation fields)))⟩) :=
  ⟨GetCompany_invalid_request (sampleDeps (str ""))
      ⟨⟨[(str "us", str "http://localhost:9002")]⟩⟩ ⟨str "", str "us"⟩ (Or.inl rfl),
   GetCompany_invalid_request (sampleDeps (str ""))
      ⟨⟨[(str "us", str "http://localhost:9002")]⟩⟩ ⟨str "1234", str "usa"⟩
      (Or.inr (Or.inr (by decide)))⟩

/-- Counterexample to C2: the Code `é` is one character long, not 2, yet it
is 2 bytes long and `validation.Length(2, 2)` counts bytes. `Validate`
returns nil for it, and `GetCompany` does not return a validation error: it
forms an address and calls `http.Get`. -/
theorem GetCompany_invalid_request_counterexample :
    RuneCountInString (str "é") = 1 ∧ (str "é").length = 2 ∧
    (⟨str "1234", str "é"⟩ : GetCompanyRequest).Validate = none ∧
    (Service.GetCompany (sampleDeps (str ""))
        ⟨⟨[(str "us", str "http://localhost:9002")]⟩⟩ ⟨str "1234", str "é"⟩).httpGetCalls =
      [str "/companies/1234"] ∧
    ¬ ∃ err, Service.GetCompany (sampleDeps (str ""))
        ⟨⟨[(str "us", str "http://localhost:9002")]⟩⟩ ⟨str "1234", str "é"⟩ =
      ⟨[], .returned (.error (.wrapf "invalid request: " err))⟩ := by
  have h : Service.GetCompany (sampleDeps (str ""))
        ⟨⟨[(str "us", str "http://localhost:9002")]⟩⟩ ⟨str "1234", str "é"⟩ =
      ⟨[str "/companies/1234"], .exited 1⟩ := by decide
  refine ⟨by decide, by decide, by decide, by rw [h], ?_⟩
  rintro ⟨err, herr⟩
  rw [h] at herr
  cases herr

/-- Counterexample to C3: with a registry that only has `us`, a request for
the unregistered code `uk` is not answered with an error before any call of
`http.Get`. The address `/companies/1234` is formed from the missing entry
and handed to `http.Get`, and with a transport on which that call fails the
call of `GetCompany` does not return. The unregistered code `éé`, which is 2
characters but 4 bytes long, is answered with a validation error instead. -/
theorem GetCompany_unregistered_counterexample :
    GoMap.lookup ⟨[(str "us", str "http://localhost:9002")]⟩ (str "uk") = none ∧
    Service.GetCompany (sampleDeps (str ""))
        ⟨⟨[(str "us", str "http://localhost:9002")]⟩⟩ ⟨str "1234", str "uk"⟩ =
      ⟨[str "/companies/1234"], .exited 1⟩ ∧
    (¬ ∃ err, Service.GetCompany (sampleDeps (str ""))
        ⟨⟨[(str "us", str "http://localhost:9002")]⟩⟩ ⟨str "1234", str "uk"⟩ =
      ⟨[], .returned (.error err)⟩) ∧
    RuneCountInString (str "éé") = 2 ∧
    GoMap.lookup ⟨[(str "us", str "http://localhost:9002")]⟩ (str "éé") = none ∧
    Service.GetCompany (sampleDeps (str ""))
        ⟨⟨[(str "us", str "http://localhost:9002")]⟩⟩ ⟨str "1234", str "éé"⟩ =
      ⟨[], .returned (.error (.wrapf "invalid request: "
        (.validation [("Code", "the length must be exactly 2")])))⟩ := by
  have h : Service.GetCompany (sampleDeps (str ""))
        ⟨⟨[(str "us", str "http://localhost:9002")]⟩⟩ ⟨str "1234", str "uk"⟩ =
      ⟨[str "/companies/1234"], .exited 1⟩ := by decide
  refine ⟨by decide, h, ?_, by decide, by decide, by decide⟩
  rintro ⟨err, herr⟩
  rw [h] at herr
  cases herr

/-- Claim C3 as amended: for a request with a non-empty ID and a Code of
exactly 2 bytes that is not a key of Backends, whatever the ID, `GetCompany`
makes no check that the code is registered and returns no error for it:
`Validate` passes, `formRequest` takes the empty string as the base address
and yields `"/companies/"` followed by the ID, and `GetCompany` hands that
string to `http.Get`, in the one call of `http.Get` it makes. -/
theorem GetCompany_unregistered (L : Deps) (s : Service) (req : GetCompanyRequest)
    (hid : req.ID ≠ str "") (hcode : req.Code.length = 2)
    (habs : s.Backends.lookup req.Code = none) :
    req.Validate = none ∧
    s.formRequest req = str "/companies/" ++ req.ID ∧
    (s.GetCompany L req).httpGetCalls = [str "/companies/" ++ req.ID] ∧
    ∀ err, s.GetCompany L req ≠ ⟨[], .returned (.error err)⟩ := by
  have hform : s.formRequest req = str "/companies/" ++ req.ID := by
    simp [Service.formRequest, GoMap.index, habs]
  have hv : req.Validate = none := (Validate_eq_none_iff req).mpr ⟨hid, hcode⟩
  have hcalls : (s.GetCompany L req).httpGetCalls = [str "/companies/" ++ req.ID] := by
    simp only [Service.GetCompany, hv, hform]
    rcases L.httpGet (str "/companies/" ++ req.ID) with _ | resp
    · rfl
    · simp only
      rcases processResponse L resp with _ | out <;> rfl
  refine ⟨hv, hform, hcalls, ?_⟩
  intro err herr
  rw [herr] at hcalls
  cases hcalls

/-- Witness of the amended C3 at the request of the counterexample. -/
theorem GetCompany_unregistered_witness :
    (⟨str "1234", str "uk"⟩ : GetCompanyRequest).Validate = none ∧
    Service.formRequest ⟨⟨[(str "us", str "http://localhost:9002")]⟩⟩ ⟨str "1234", str "uk"⟩
      = str "/companies/" ++ str "1234" ∧
    (Service.GetCompany (sampleDeps (str ""))
        ⟨⟨[(str "us", str "http://localhost:9002")]⟩⟩ ⟨str "1234", str "uk"⟩).httpGetCalls
      = [str "/companies/" ++ str "1234"] :=
  have h := GetCompany_unregistered (sampleDeps (str ""))
    ⟨⟨[(str "us", str "http://localhost:9002")]⟩⟩ ⟨str "1234", str "uk"⟩
    (by decide) (by decide) (by decide)
  ⟨h.1, h.2.1, h.2.2.1⟩

/-! ## readArgs -/

theorem utf8EncodeRune_eq_sep (b : Nat) : utf8EncodeRune b = str "=" ↔ b = 61 := by
  have hs : str "=" = [61] := by decide
  rw [hs]
  constructor
  · intro h
    unfold utf8EncodeRune at h
    split_ifs at h <;> simp at h
    exact h
  · rintro rfl
    decide

theorem lookup_iff_mem (l : List (GoString × GoString)) (k v : GoString)
    (h : (l.map Prod.fst).Nodup) : l.lookup k = some v ↔ (k, v) ∈ l := by
  induction l with
  | nil => simp
  | cons p l ih =>
    rcases p with ⟨a, b⟩
    simp only [List.map_cons, List.nodup_cons] at h
    rw [List.lookup_cons]
    by_cases hk : k = a
    · subst hk
      simp only [beq_self_eq_true, List.mem_cons, Prod.mk.injEq, true_and, Option.some.injEq]
      constructor
      · intro hb
        exact Or.inl hb.symm
      · rintro (hb | hmem)
        · exact hb.symm
        · exact absurd (List.mem_map_of_mem Prod.fst hmem) h.1
    · have hbeq : (k == a) = false := by simpa using hk
      simp only [hbeq, List.mem_cons, Prod.mk.injEq, hk, false_and, false_or]
      exact ih h.2

theorem entry_parts (e : GoString × GoString) (h : e.1.length = 2) :
    (entry e)[2]? = some 61 ∧ (entry e).take 2 = e.1 ∧ (entry e).drop 3 = e.2 := by
  rcases e with ⟨c, a⟩
  have hs : str "=" = [61] := by decide
  simp only [entry, hs]
  match c, h with
  | [x, y], _ => simp

theorem set_fresh (m : GoMap) (k v : GoString) (h : k ∉ m.keys) :
    m.set k v = ⟨(k, v) :: m.entries⟩ := by
  unfold GoMap.set
  congr 2
  rw [List.filter_eq_self]
  intro p hp
  have : p.1 ≠ k := fun hpk => h (hpk ▸ List.mem_map_of_mem Prod.fst hp)
  simpa using this

theorem readArgsLoop_valid (uri : GoString → Option GoError)
    (entries : List (GoString × GoString)) :
    ∀ m : GoMap, (∀ e ∈ entries, e.1.length = 2) → (∀ e ∈ entries, uri e.2 = none) →
      (entries.map Prod.fst).Nodup → (∀ e ∈ entries, e.1 ∉ m.keys) →
      readArgsLoop uri m (entries.map entry) = .returned (.ok ⟨entries.reverse ++ m.entries⟩) := by
  induction entries with
  | nil => intro m _ _ _ _; simp [readArgsLoop]
  | cons e rest ih =>
    intro m hlen huri hnd hfresh
    obtain ⟨h2, htake, hdrop⟩ := entry_parts e (hlen e (List.mem_cons_self _ _))
    simp only [List.map_cons, List.nodup_cons] at hnd
    have hsep : ¬ utf8EncodeRune 61 ≠ str "=" := by
      simp [utf8EncodeRune_eq_sep]
    simp only [List.map_cons, readArgsLoop, h2, if_neg hsep, hdrop, htake,
      huri e (List.mem_cons_self _ _)]
    rw [set_fresh m e.1 e.2 (hfresh e (List.mem_cons_self _ _))]
    rw [ih ⟨(e.1, e.2) :: m.entries⟩ (fun x hx => hlen x (List.mem_cons_of_mem _ hx))
      (fun x hx => huri x (List.mem_cons_of_mem _ hx)) hnd.2]
    · simp
    · intro x hx hmem
      simp only [GoMap.keys, List.map_cons, List.mem_cons] at hmem
      rcases hmem with hxe | hmem
      · exact hnd.1 (hxe ▸ List.mem_map_of_mem Prod.fst hx)
      · exact hfresh x (List.mem_cons_of_mem _ hx) hmem

/-- Claim C7 as amended: for a non-empty list of entries `cc=address` in
which every `cc` is exactly 2 bytes long (`len(cc) = 2`), the codes are
pairwise distinct and every address is accepted by `url.ParseRequestURI`,
`readArgs` returns no error and a map with as many keys as there are
entries, in which a code maps to an address exactly when the pair is one of
the entries. -/
theorem readArgs_valid (uri : GoString → Option GoError) (prog : GoString)
    (entries : List (GoString × GoString))
    (hne : entries ≠ [])
    (hlen : ∀ e ∈ entries, e.1.length = 2)
    (hnd : (entries.map Prod.fst).Nodup)
    (huri : ∀ e ∈ entries, uri e.2 = none) :
    ∃ m : GoMap, readArgs uri (prog :: entries.map entry) = .returned (.ok m) ∧
      m.len = entries.length ∧ m.keys.Nodup ∧
      ∀ k v, m.lookup k = some v ↔ (k, v) ∈ entries := by
  have hpos : ¬ (entries.map entry).length < 1 := by
    cases entries with
    | nil => exact absurd rfl hne
    | cons e rest => simp
  have hloop := readArgsLoop_valid uri entries GoMap.make hlen huri hnd
    (fun _ _ hmem => by simp [GoMap.keys, GoMap.make] at hmem)
  have hkeys : ((entries.reverse).map Prod.fst).Nodup := by
    rw [List.map_reverse]
    exact List.nodup_reverse.mpr hnd
  refine ⟨⟨entries.reverse⟩, ?_, ?_, hkeys, ?_⟩
  · simp only [readArgs, if_neg hpos, hloop]
    simp [GoMap.make]
  · simp [GoMap.len]
  · intro k v
    simp only [GoMap.lookup]
    rw [lookup_iff_mem _ k v hkeys]
    simp

/-- Witness of C7 at the arguments of the unit test with two backends. -/
theorem readArgs_valid_witness :
    ∃ m : GoMap,
      readArgs (fun _ => none)
        [str "./program", str "us=http://localhost:9002", str "uk=http://localhost:9001"]
        = .returned (.ok m) ∧
      m.len = 2 ∧ m.keys.Nodup ∧
      ∀ k v, m.lookup k = some v ↔
        (k, v) ∈ [(str "us", str "http://localhost:9002"), (str "uk", str "http://localhost:9001")] :=
  readArgs_valid (fun _ => none) (str "./program")
    [(str "us", str "http://localhost:9002"), (str "uk", str "http://localhost:9001")]
    (by decide) (by decide) (by decide) (by simp)

/-- Counterexample to C7: the single entry `éé=http://localhost:9002` has a
code of exactly 2 characters and an address that is accepted, yet the code
is 4 bytes long, the byte `arg[2]` is not `=`, and `readArgs` returns the
error `invalid parameter format` and no map. -/
theorem readArgs_valid_counterexample :
    RuneCountInString (str "éé") = 2 ∧
    acceptAll (str "http://localhost:9002") = none ∧
    entry (str "éé", str "http://localhost:9002") = str "éé=http://localhost:9002" ∧
    readArgs acceptAll [str "./program", entry (str "éé", str "http://localhost:9002")] =
      .returned (.error (.new "invalid parameter format")) ∧
    ¬ ∃ m, readArgs acceptAll [str "./program", entry (str "éé", str "http://localhost:9002")] =
      .returned (.ok m) := by
  have h : readArgs acceptAll [str "./program", entry (str "éé", str "http://localhost:9002")] =
      .returned (.error (.new "invalid parameter format")) := by decide
  refine ⟨by decide, rfl, by decide, h, ?_⟩
  rintro ⟨m, hm⟩
  rw [h] at hm
  cases hm

/-- Claim C4 at its failing inputs: an entry shorter than 3 bytes (`us`, `a`
or the empty string) does not make `readArgs` return an error; the read of
`arg[2]` is past the end of the entry and the call ends in a run-time panic,
whatever `url.ParseRequestURI` accepts. -/
theorem readArgs_short_entry (uri : GoString → Option GoError) :
    readArgs uri [str "./program", str "us"] = .panicked "index out of range" ∧
    readArgs uri [str "./program", str "a"] = .panicked "index out of range" ∧
    readArgs uri [str "./program", str ""] = .panicked "index out of range" ∧
    ¬ ∃ err, readArgs uri [str "./program", str "us"] = .returned (.error err) := by
  have h : readArgs uri [str "./program", str "us"] = .panicked "index out of range" := rfl
  refine ⟨h, rfl, rfl, ?_⟩
  rintro ⟨err, herr⟩
  rw [h] at herr
  cases herr

theorem readArgsLoop_rejects (uri : GoString → Option GoError) (params : List GoString) :
    ∀ m : GoMap, (∀ arg ∈ params, 3 ≤ arg.length) →
      (∃ arg ∈ params, arg[2]? ≠ some 61 ∨ uri (arg.drop 3) ≠ none) →
      ∃ err, readArgsLoop uri m params = .returned (.error err) := by
  induction params with
  | nil => intro m _ h; simp at h
  | cons arg rest ih =>
    intro m hlen hbad
    have h3 : 2 < arg.length := hlen arg (List.mem_cons_self _ _)
    have hget : arg[2]? = some arg[2] := List.getElem?_eq_getElem h3
    by_cases hsep : arg[2] = 61
    · rcases huri : uri (arg.drop 3) with _ | e
      · have hrest : ∃ a ∈ rest, a[2]? ≠ some 61 ∨ uri (a.drop 3) ≠ none := by
          obtain ⟨a, ha, hcond⟩ := hbad
          rcases List.mem_cons.mp ha with rfl | hmem
          · exfalso
            rcases hcond with hc | hc
            · exact hc (by rw [hget, hsep])
            · exact hc huri
          · exact ⟨a, hmem, hcond⟩
        obtain ⟨err, herr⟩ := ih (m.set (arg.take 2) (arg.drop 3))
          (fun a ha => hlen a (List.mem_cons_of_mem _ ha)) hrest
        refine ⟨err, ?_⟩
        simp only [readArgsLoop, hget, hsep, huri]
        simpa [utf8EncodeRune_eq_sep] using herr
      · refine ⟨.new "invalid parameter, must contain valid URL", ?_⟩
        simp only [readArgsLoop, hget, hsep, huri]
        simp [utf8EncodeRune_eq_sep]
    · refine ⟨.new "invalid parameter format", ?_⟩
      simp only [readArgsLoop, hget]
      simp [utf8EncodeRune_eq_sep, hsep]

/-- When every entry has at least 3 bytes, `readArgs` returns an error and no
map as soon as the list after the program name is empty, or some entry does
not have the byte `=` at index 2, or some entry's bytes from index 3 on are
refused by `url.ParseRequestURI`. -/
theorem readArgs_rejects (uri : GoString → Option GoError) (prog : GoString)
    (params : List GoString)
    (hlen : ∀ arg ∈ params, 3 ≤ arg.length)
    (hbad : params = [] ∨ ∃ arg ∈ params, arg[2]? ≠ some 61 ∨ uri (arg.drop 3) ≠ none) :
    ∃ err, readArgs uri (prog :: params) = .returned (.error err) := by
  rcases hbad with rfl | hbad
  · exact ⟨.new "no valid parameters", by simp [readArgs]⟩
  · have hpos : ¬ params.length < 1 := by
      obtain ⟨a, ha, _⟩ := hbad
      cases params with
      | nil => simp at ha
      | cons _ _ => simp
    obtain ⟨err, herr⟩ := readArgsLoop_rejects uri params GoMap.make hlen hbad
    exact ⟨err, by simp only [readArgs, if_neg hpos, herr]⟩

end Backendify
